import Mathlib

/-!
# checkHealth.js: the failure tracker of the health monitor

A shallow embedding of `src/checkHealth.js` and the properties of one polling cycle.

* Parsed JSON documents are the `Json` type; `undefined` is `none` in `JsValue`.
* The answer of the network to each GET, the `JSON.parse` function, the behaviour of the
  Slack webhook and the two clock readings are inputs of `checkHealth`.
* A JavaScript `Set` of strings is the list of its elements in insertion order.
* An exception is the `message` of the thrown `Error`, the only part the program reads.
-/

set_option autoImplicit false

namespace CheckHealth

/-! ## JavaScript values read out of a parsed document -/

/-- A JSON number as the program can observe it: `checkHealth` only tests a number for
truthiness and interpolates it into a template literal. -/
structure JsNumber where
  /-- the number is `0` or `-0`, the falsy numbers `JSON.parse` can return -/
  isZero : Bool
  /-- the result of `Number.prototype.toString` -/
  text : String
deriving DecidableEq, Repr

/-- A value returned by `JSON.parse`. An object is the list of its own properties, each
name listed once. -/
inductive Json where
  | null
  | bool (b : Bool)
  | num (n : JsNumber)
  | str (s : String)
  | arr (items : List Json)
  | obj (fields : List (String × Json))

/-- A JavaScript value that comes out of a property read: `none` is `undefined`. -/
abbrev JsValue := Option Json

/-- The message V8 gives the `TypeError` of a property read on `null`. -/
def nullReadMessage (key : String) : String :=
  "Cannot read properties of null (reading \x27" ++ key ++ "\x27)"

/-- The message V8 gives the `TypeError` of `ToString` on an object with neither a callable
`toString` nor a `valueOf` returning a primitive. -/
def notPrimitiveMessage : String := "Cannot convert object to primitive value"

/-- The read `v.key` for the property names the program reads (`data`, `attributes`,
`status`, `name`, `id`), none of which lives on a prototype: `null` throws, an object
yields its own property, every other value yields `undefined`. -/
def getProp (v : Json) (key : String) : Except String JsValue :=
  match v with
  | .null => .error (nullReadMessage key)
  | .obj fields => .ok (fields.lookup key)
  | _ => .ok none

/-- The optional read `v?.key`: `undefined` when `v` is `undefined` or `null`. -/
def optProp (v : JsValue) (key : String) : JsValue :=
  match v with
  | some (.obj fields) => fields.lookup key
  | _ => none

/-- JavaScript truthiness (`ToBoolean`). -/
def truthy (v : JsValue) : Bool :=
  match v with
  | none => false
  | some .null => false
  | some (.bool b) => b
  | some (.num n) => !n.isZero
  | some (.str s) => s != ""
  | some (.arr _) => true
  | some (.obj _) => true

/-- The test `Array.isArray(v)`. -/
def isArray (v : JsValue) : Bool :=
  match v with
  | some (.arr _) => true
  | _ => false

/-- The elements of an array value (no elements for any other value). -/
def arrayItems (v : JsValue) : List Json :=
  match v with
  | some (.arr items) => items
  | _ => []

/-- The comparison `v !== "passing"`. -/
def notPassing (v : JsValue) : Bool :=
  match v with
  | some (.str s) => s != "passing"
  | _ => true

mutual
/-- JavaScript `ToString` of a parsed value, as a template literal applies it. An object
with an own `toString` property (never callable in parsed JSON) throws; an array joins its
elements with commas. -/
def Json.toStr : Json → Except String String
  | .null => .ok "null"
  | .bool true => .ok "true"
  | .bool false => .ok "false"
  | .num n => .ok n.text
  | .str s => .ok s
  | .arr items => (Json.joinItems items).map (String.intercalate ",")
  | .obj fields =>
      if fields.any (fun kv => kv.1 == "toString") then .error notPrimitiveMessage
      else .ok "[object Object]"
termination_by structural v => v
/-- The element strings of `Array.prototype.join`: `null` becomes the empty string. -/
def Json.joinItems : List Json → Except String (List String)
  | [] => .ok []
  | .null :: rest =>
      match Json.joinItems rest with
      | .error e => .error e
      | .ok r => .ok ("" :: r)
  | x :: rest =>
      match Json.toStr x with
      | .error e => .error e
      | .ok s =>
          match Json.joinItems rest with
          | .error e => .error e
          | .ok r => .ok (s :: r)
termination_by structural xs => xs
end

/-- `ToString` of a value that may be `undefined`. -/
def toStr (v : JsValue) : Except String String :=
  match v with
  | none => .ok "undefined"
  | some j => j.toStr

/-! ## The program state -/

/-- One entry of `HEALTH_URLS`. -/
structure Target where
  name : String
  url : String
deriving DecidableEq, Repr

/-- A line written to the console, by `console.log` or by `console.error`. -/
inductive Console where
  | log (line : String)
  | error (line : String)
deriving DecidableEq, Repr

/-- The arguments of one call of `sendSlackBlock`. -/
structure SlackCall where
  title : String
  message : String
  color : String
deriving DecidableEq, Repr

/-- What the GET of a target's url produced: an `error` event of the request, or the
complete response body. -/
inductive Response where
  | failed (message : String)
  | body (data : String)
deriving DecidableEq, Repr

/-- The locals of `checkHealth` that the loop over the targets updates, with the console. -/
structure Cycle where
  currentFailures : List String
  failMessages : List String
  console : List Console
deriving DecidableEq, Repr

/-- `Set.prototype.add`: an element already present is not added again. -/
def setAdd (s : List String) (k : String) : List String :=
  if k ∈ s then s else s ++ [k]

/-! ## Failure keys (lines 131, 149, 157) -/

/-- A failing condition of a target: a failing check, named by the text of
`attributes.name || id`, a failed probe, or a document without a `data` array. -/
inductive Condition where
  | check (label : String)
  | connectionError
  | unexpectedFormat
deriving DecidableEq, Repr

/-- The string added to `currentFailures` for a failing condition of the target `name`. -/
def failureKey (name : String) : Condition → String
  | .check label => name ++ ":" ++ label
  | .connectionError => name ++ ":ConnectionError"
  | .unexpectedFormat => name ++ ": Unexpected JSON format"

/-! ## fetchHealth (lines 98-115) -/

/-- `fetchHealth`: the promise rejects with the request error, or with
`Invalid JSON response` when `JSON.parse` throws, and resolves with the parsed body
otherwise. `parse` is `JSON.parse`, `none` when it throws. -/
def fetchHealth (parse : String → Option Json) (r : Response) : Except String Json :=
  match r with
  | .failed message => .error message
  | .body data =>
      match parse data with
      | none => .error "Invalid JSON response"
      | some json => .ok json

/-! ## The loop body of checkHealth (lines 124-160) -/

/-- The filter predicate `item.attributes?.status !== "passing"` (line 137). -/
def isFailing (item : Json) : Except String Bool :=
  match getProp item "attributes" with
  | .error e => .error e
  | .ok attributes => .ok (notPassing (optProp attributes "status"))

/-- `result.data.filter(...)` (lines 136-138): the callback runs on the elements in order
and the first exception ends the call. -/
def filterFailing : List Json → Except String (List Json)
  | [] => .ok []
  | item :: rest =>
      match isFailing item with
      | .error e => .error e
      | .ok keep =>
          match filterFailing rest with
          | .error e => .error e
          | .ok tail => .ok (if keep then item :: tail else tail)

/-- The interpolated expression `c.attributes?.name || c.id` (lines 144, 149). -/
def nameOrId (c : Json) : Except String String :=
  match getProp c "attributes" with
  | .error e => .error e
  | .ok attributes =>
      if truthy (optProp attributes "name") then toStr (optProp attributes "name")
      else
        match getProp c "id" with
        | .error e => .error e
        | .ok id => toStr id

/-- The interpolated expression `c.attributes?.status` (line 144). -/
def statusText (c : Json) : Except String String :=
  match getProp c "attributes" with
  | .error e => .error e
  | .ok attributes => toStr (optProp attributes "status")

/-- The template literal of line 144, one detail line of a failing check. -/
def detailLine (target : Target) (c : Json) : Except String String :=
  match nameOrId c with
  | .error e => .error e
  | .ok label =>
      match statusText c with
      | .error e => .error e
      | .ok status =>
          .ok ("• *" ++ target.name ++ "* → " ++ label ++ ": \x60" ++ status ++ "\x60")

/-- `failing.map(...)` (lines 141-145): the first exception ends the call. -/
def detailLines (target : Target) : List Json → Except String (List String)
  | [] => .ok []
  | c :: rest =>
      match detailLine target c with
      | .error e => .error e
      | .ok line =>
          match detailLines target rest with
          | .error e => .error e
          | .ok lines => .ok (line :: lines)

/-- The template literal of line 149, the key of a failing check. -/
def checkKey (target : Target) (f : Json) : Except String String :=
  match nameOrId f with
  | .error e => .error e
  | .ok label => .ok (failureKey target.name (.check label))

/-- The loop `for (const f of failing) currentFailures.add(...)` (lines 148-149): the set
reached, and the exception that ended the loop, if any. -/
def addFailures (target : Target) : List Json → List String → List String × Option String
  | [], s => (s, none)
  | f :: rest, s =>
      match checkKey target f with
      | .error e => (s, some e)
      | .ok key => addFailures target rest (setAdd s key)

/-- The `try` block (lines 126-153), run on the settled promise of `fetchHealth`: the
state it leaves and the exception that ended it, if any. -/
def tryBlock (target : Target) (fetched : Except String Json) (st : Cycle) :
    Cycle × Option String :=
  match fetched with
  | .error e => (st, some e)
  | .ok result =>
      match getProp result "data" with
      | .error e => (st, some e)
      | .ok data =>
          if !truthy data || !isArray data then
            let msg := failureKey target.name .unexpectedFormat
            ({ currentFailures := setAdd st.currentFailures msg,
               failMessages := st.failMessages ++ ["• " ++ msg],
               console := st.console ++ [.error ("⚠️ " ++ msg)] }, none)
          else
            match filterFailing (arrayItems data) with
            | .error e => (st, some e)
            | .ok failing =>
                if failing.length > 0 then
                  match detailLines target failing with
                  | .error e => (st, some e)
                  | .ok lines =>
                      let details := String.intercalate "\n" lines
                      let console := st.console ++ [.error ("❌ " ++ details)]
                      match addFailures target failing st.currentFailures with
                      | (s, some e) =>
                          ({ currentFailures := s, failMessages := st.failMessages,
                             console := console }, some e)
                      | (s, none) =>
                          ({ currentFailures := s,
                             failMessages := st.failMessages ++ [details],
                             console := console }, none)
                else
                  ({ st with
                     console := st.console ++
                       [.log ("✅ " ++ target.name ++ ": All checks passing.")] }, none)

/-- One iteration of the loop (lines 125-159): the `try` block, and the `catch` block
when it threw. -/
def checkTarget (target : Target) (fetched : Except String Json) (st : Cycle) : Cycle :=
  match tryBlock target fetched st with
  | (st1, none) => st1
  | (st1, some message) =>
      let msg := "• *" ++ target.name ++ "*: Error fetching health (" ++ message ++ ")"
      { currentFailures := setAdd st1.currentFailures (failureKey target.name .connectionError),
        failMessages := st1.failMessages ++ [msg],
        console := st1.console ++ [.error ("❌ " ++ msg)] }

/-- The loop over `HEALTH_URLS` (lines 124-160); each target comes with the answer of the
network to the GET of its url. -/
def checkTargets (parse : String → Option Json) (HEALTH_URLS : List (Target × Response))
    (st : Cycle) : Cycle :=
  HEALTH_URLS.foldl (fun acc p => checkTarget p.1 (fetchHealth parse p.2) acc) st

/-! ## The notification decision (lines 162-186) -/

/-- The call of line 173. -/
def newFailureAlert (failMessages : List String) : SlackCall :=
  { title := "🚨 障害検出", message := String.intercalate "\n" failMessages, color := "#ff4d4d" }

/-- The call of line 181. -/
def recoveryAlert : SlackCall :=
  { title := "✅ 全システム回復",
    message := "以前発生していたすべての障害が解消されました。\nシステムは正常に稼働しています。",
    color := "#36a64f" }

/-- `newFailures` of lines 162-164. -/
def newFailures (previousFailures currentFailures : List String) : List String :=
  currentFailures.filter (fun f => !previousFailures.contains f)

/-- `recovered` of lines 165-167, computed and never read. -/
def recovered (previousFailures currentFailures : List String) : List String :=
  previousFailures.filter (fun f => !currentFailures.contains f)

/-- Lines 169-186: the calls of `sendSlackBlock` made and the console lines written.
`sendSlackBlock` is the webhook: the message of the error it fails with, or success. -/
def notify (sendSlackBlock : SlackCall → Except String Unit)
    (previousFailures currentFailures failMessages : List String) :
    List SlackCall × List Console :=
  if (newFailures previousFailures currentFailures).length > 0 then
    let call := newFailureAlert failMessages
    match sendSlackBlock call with
    | .ok _ => ([call], [.log "📨 Sent Slack alert for new failures."])
    | .error message => ([call], [.error ("❌ Slack send error: " ++ message)])
  else if currentFailures.length == 0 && previousFailures.length > 0 then
    let call := recoveryAlert
    match sendSlackBlock call with
    | .ok _ => ([call], [.log "📨 Sent Slack recovery message."])
    | .error message => ([call], [.error ("❌ Slack send error: " ++ message)])
  else ([], [])

/-! ## checkHealth (lines 118-190) -/

/-- What one run of `checkHealth` leaves: the new value of the global `previousFailures`,
the calls of `sendSlackBlock` and the console output. -/
structure Outcome where
  previousFailures : List String
  sent : List SlackCall
  console : List Console
deriving DecidableEq, Repr

/-- The state at line 123, before the loop; `startTime` is the first clock reading. -/
def Cycle.start (startTime : String) : Cycle :=
  { currentFailures := [], failMessages := [],
    console := [.log ("[" ++ startTime ++ "] 🩺 Health check start")] }

/-- `checkHealth`, one polling cycle. -/
def checkHealth (parse : String → Option Json)
    (sendSlackBlock : SlackCall → Except String Unit) (startTime endTime : String)
    (HEALTH_URLS : List (Target × Response)) (previousFailures : List String) : Outcome :=
  let st := checkTargets parse HEALTH_URLS (Cycle.start startTime)
  let n := notify sendSlackBlock previousFailures st.currentFailures st.failMessages
  { previousFailures := st.currentFailures,
    sent := n.1,
    console := st.console ++ n.2 ++ [.log ("[" ++ endTime ++ "] ✅ Health check done\n")] }


/-! ## What one target contributes -/

/-- The keys one loop iteration adds, read off a run from the empty state. -/
def emittedKeys (target : Target) (fetched : Except String Json) : List String :=
  (checkTarget target fetched ⟨[], [], []⟩).currentFailures

/-- The detail groups one loop iteration pushes, read off a run from the empty state. -/
def emittedDetails (target : Target) (fetched : Except String Json) : List String :=
  (checkTarget target fetched ⟨[], [], []⟩).failMessages

/-- The console lines one loop iteration writes, read off a run from the empty state. -/
def emittedConsole (target : Target) (fetched : Except String Json) : List Console :=
  (checkTarget target fetched ⟨[], [], []⟩).console

/-- The keys of a whole cycle, target by target in the order of `HEALTH_URLS`. -/
def cycleKeys (parse : String → Option Json) (HEALTH_URLS : List (Target × Response)) :
    List String :=
  HEALTH_URLS.flatMap (fun p => emittedKeys p.1 (fetchHealth parse p.2))

/-- The detail groups of a whole cycle, target by target in the order of `HEALTH_URLS`. -/
def cycleDetails (parse : String → Option Json) (HEALTH_URLS : List (Target × Response)) :
    List String :=
  HEALTH_URLS.flatMap (fun p => emittedDetails p.1 (fetchHealth parse p.2))

/-! ## The shape of a health document -/

deriving instance DecidableEq for Except

/-- A value a template literal turns into text without calling into an object:
`undefined`, `null`, a boolean, a number or a string. -/
def isPrimitive (v : JsValue) : Bool :=
  match v with
  | some (.arr _) => false
  | some (.obj _) => false
  | _ => true

/-- An element of `data` that the loop body evaluates without an exception: any value
but `null` whose `id`, `attributes.name` and `attributes.status` are primitive
(`undefined` when the element has no such property). -/
def isEvaluable (item : Json) : Bool :=
  match item with
  | .null => false
  | .obj fields =>
      isPrimitive (fields.lookup "id") &&
      isPrimitive (optProp (fields.lookup "attributes") "name") &&
      isPrimitive (optProp (fields.lookup "attributes") "status")
  | _ => true

/-- A check object `{ id, attributes: { name, status } }`: an object whose `id`,
`attributes.name` and `attributes.status`, where present, are primitive values. -/
def isCheckObject (item : Json) : Bool :=
  match item with
  | .obj _ => isEvaluable item
  | _ => false

/-! ## The claim's reading of a check

What follows restates, in the words of the specification, what a check is: its status is
`attributes.status`, it is failing unless that status is the string `passing`, and its
label is `attributes.name`, or `id` when the name is falsy. These definitions do not use
the program's functions; the theorems compare the program with them. -/

/-- The property `attributes.key` of an element of `data`, `undefined` when the element
or its `attributes` has no such property. -/
def attributeOf (item : Json) (key : String) : JsValue :=
  match item with
  | .obj fields =>
      match fields.lookup "attributes" with
      | some (.obj attributes) => attributes.lookup key
      | _ => none
  | _ => none

/-- The status `attributes.status` of a check. -/
def statusOf (item : Json) : JsValue := attributeOf item "status"

/-- The name `attributes.name` of a check. -/
def nameOf (item : Json) : JsValue := attributeOf item "name"

/-- The `id` of a check, `undefined` when it has none. -/
def idOf (item : Json) : JsValue :=
  match item with
  | .obj fields => fields.lookup "id"
  | _ => none

/-- The falsy values: `undefined`, `null`, `false`, zero and the empty string. -/
def isFalsy (v : JsValue) : Bool :=
  match v with
  | none => true
  | some .null => true
  | some (.bool b) => b == false
  | some (.num n) => n.isZero
  | some (.str s) => s == ""
  | _ => false

/-- The text of a primitive value in a message: a string is itself, a number is its
decimal text, and `undefined`, `null`, `true`, `false` are spelled out. Arrays and
objects are not primitive and are given the empty text. -/
def primitiveText (v : JsValue) : String :=
  match v with
  | none => "undefined"
  | some .null => "null"
  | some (.bool true) => "true"
  | some (.bool false) => "false"
  | some (.num n) => n.text
  | some (.str s) => s
  | _ => ""

/-- The label of a check: the text of `attributes.name`, or of `id` when the name is
falsy. -/
def labelOf (item : Json) : String :=
  if isFalsy (nameOf item) then primitiveText (idOf item) else primitiveText (nameOf item)

/-- The detail line of a failing check: the target name, the label and the status. -/
def lineOf (target : Target) (item : Json) : String :=
  "• *" ++ target.name ++ "* → " ++ labelOf item ++ ": \x60" ++
    primitiveText (statusOf item) ++ "\x60"

/-- Whether a value is the string `passing` can be decided. -/
instance decidablePassing (v : JsValue) : Decidable (v = some (.str "passing")) :=
  match v with
  | some (.str s) =>
      if h : s = "passing" then isTrue (by rw [h])
      else isFalse (fun h2 => h (by injection h2 with h3; injection h3))
  | none => isFalse (fun h => by cases h)
  | some .null => isFalse (fun h => by cases h)
  | some (.bool _) => isFalse (fun h => by cases h)
  | some (.num _) => isFalse (fun h => by cases h)
  | some (.arr _) => isFalse (fun h => by cases h)
  | some (.obj _) => isFalse (fun h => by cases h)

/-- The text that follows `target.name:` in the key of a condition. -/
def Condition.suffix : Condition → String
  | .check label => label
  | .connectionError => "ConnectionError"
  | .unexpectedFormat => " Unexpected JSON format"

/-- A condition whose key text is not the text of another kind of condition: a check is
reserved when its label is the text used for a failed probe or for an unexpected format. -/
def Condition.isReserved : Condition → Bool
  | .check label => label == "ConnectionError" || label == " Unexpected JSON format"
  | _ => false

/-! ## Sample inputs -/

/-- A target named `db`. -/
def dbTarget : Target := { name := "db", url := "https://db.example/health" }

/-- A target named `api`. -/
def apiTarget : Target := { name := "api", url := "https://api.example/health" }

/-- A webhook that accepts every call. -/
def delivered : SlackCall → Except String Unit := fun _ => .ok ()

/-- A webhook that fails every call. -/
def undelivered : SlackCall → Except String Unit := fun _ => .error "ECONNRESET"

/-- One element of `data`. -/
def checkItem (id name status : String) : Json :=
  .obj [("id", .str id), ("attributes", .obj [("name", .str name), ("status", .str status)])]

/-- The document `\x7b"data":[disk critical, cpu passing]\x7d`. -/
def diskCriticalDoc : Json :=
  .obj [("data", .arr [checkItem "1" "disk" "critical", checkItem "2" "cpu" "passing"])]

/-- A document whose only check is failing and is named `ConnectionError`. -/
def namedLikeAnErrorDoc : Json :=
  .obj [("data", .arr [checkItem "7" "ConnectionError" "critical"])]

/-- A document with a check without a name whose status is `warning`, and a passing one. -/
def unnamedWarningDoc : Json :=
  .obj [("data", .arr [checkItem "i1" "" "warning", checkItem "2" "cpu" "passing"])]

/-- The document `\x7b"data":[5]\x7d`. -/
def numberElementDoc : Json := .obj [("data", .arr [.num { isZero := false, text := "5" }])]

/-- The document `\x7b"data":[null]\x7d`. -/
def nullElementDoc : Json := .obj [("data", .arr [.null])]

/-- The JSON text of `diskCriticalDoc`. -/
def diskCriticalBody : String :=
  "\x7b\"data\":[\x7b\"id\":\"1\",\"attributes\":\x7b\"name\":\"disk\",\"status\":\"critical\"\x7d\x7d,\x7b\"id\":\"2\",\"attributes\":\x7b\"name\":\"cpu\",\"status\":\"passing\"\x7d\x7d]\x7d"

/-- The JSON text of `namedLikeAnErrorDoc`. -/
def namedLikeAnErrorBody : String :=
  "\x7b\"data\":[\x7b\"id\":\"7\",\"attributes\":\x7b\"name\":\"ConnectionError\",\"status\":\"critical\"\x7d\x7d]\x7d"

/-- `JSON.parse` on the response bodies of the sample cycles; every other body used in
them is not JSON. -/
def sampleParse (body : String) : Option Json :=
  if body = "null" then some .null
  else if body = "\x7b\x7d" then some (.obj [])
  else if body = "\x7b\"data\":[5]\x7d" then some numberElementDoc
  else if body = diskCriticalBody then some diskCriticalDoc
  else if body = namedLikeAnErrorBody then some namedLikeAnErrorDoc
  else none

/-! ## Sets as insertion-ordered lists -/

theorem mem_setAdd (s : List String) (k x : String) : x ∈ setAdd s k ↔ x ∈ s ∨ x = k := by
  unfold setAdd
  split
  · constructor
    · intro h; exact Or.inl h
    · rintro (h | h)
      · exact h
      · subst h; assumption
  · simp

theorem nodup_setAdd (s : List String) (k : String) (h : s.Nodup) : (setAdd s k).Nodup := by
  unfold setAdd
  split
  · exact h
  · rename_i hk
    rw [List.nodup_append]
    refine ⟨h, List.nodup_singleton k, ?_⟩
    intro a ha hb
    simp at hb
    subst hb
    exact hk ha

theorem mem_foldl_setAdd (ks s : List String) (x : String) :
    x ∈ ks.foldl setAdd s ↔ x ∈ s ∨ x ∈ ks := by
  induction ks generalizing s with
  | nil => simp
  | cons k r ih =>
    simp only [List.foldl_cons, ih, mem_setAdd, List.mem_cons]
    tauto

theorem nodup_foldl_setAdd (ks s : List String) (h : s.Nodup) : (ks.foldl setAdd s).Nodup := by
  induction ks generalizing s with
  | nil => simpa using h
  | cons k r ih => exact ih _ (nodup_setAdd s k h)

theorem foldl_setAdd_setAdd (s acc : List String) (k : String) :
    (setAdd acc k).foldl setAdd s = setAdd (acc.foldl setAdd s) k := by
  by_cases hk : k ∈ acc
  · have h1 : setAdd acc k = acc := by simp [setAdd, hk]
    have h2 : k ∈ acc.foldl setAdd s := (mem_foldl_setAdd acc s k).2 (Or.inr hk)
    rw [h1]
    simp [setAdd, h2]
  · have h1 : setAdd acc k = acc ++ [k] := by simp [setAdd, hk]
    rw [h1, List.foldl_append]
    rfl

theorem foldl_setAdd_foldl (ks s acc : List String) :
    (ks.foldl setAdd acc).foldl setAdd s = ks.foldl setAdd (acc.foldl setAdd s) := by
  induction ks generalizing acc with
  | nil => rfl
  | cons k r ih =>
    simp only [List.foldl_cons]
    rw [ih, foldl_setAdd_setAdd]


/-! ## Frame lemmas: an iteration acts on the state only by adding what it emits -/

theorem addFailures_frame (target : Target) (fs : List Json) (s : List String) :
    addFailures target fs s =
      ((addFailures target fs []).1.foldl setAdd s, (addFailures target fs []).2) := by
  induction fs generalizing s with
  | nil => rfl
  | cons f r ih =>
    simp only [addFailures]
    cases hk : checkKey target f with
    | error e => rfl
    | ok key =>
      simp only []
      rw [ih (setAdd s key), ih (setAdd [] key)]
      simp only [foldl_setAdd_foldl]
      rfl

theorem tryBlock_frame (target : Target) (fetched : Except String Json) (st : Cycle) :
    tryBlock target fetched st =
      ({ currentFailures :=
          (tryBlock target fetched ⟨[], [], []⟩).1.currentFailures.foldl setAdd st.currentFailures,
         failMessages := st.failMessages ++ (tryBlock target fetched ⟨[], [], []⟩).1.failMessages,
         console := st.console ++ (tryBlock target fetched ⟨[], [], []⟩).1.console },
       (tryBlock target fetched ⟨[], [], []⟩).2) := by
  obtain ⟨cf, fm, co⟩ := st
  unfold tryBlock
  cases fetched with
  | error e => simp
  | ok result =>
    simp only []
    cases getProp result "data" with
    | error e => simp
    | ok data =>
      simp only []
      split
      · simp [setAdd]
      · cases filterFailing (arrayItems data) with
        | error e => simp
        | ok failing =>
          simp only []
          split
          · cases detailLines target failing with
            | error e => simp
            | ok lines =>
              simp only []
              rw [addFailures_frame target failing cf]
              generalize addFailures target failing [] = r
              obtain ⟨s0, e0⟩ := r
              cases e0 <;> simp
          · simp

theorem checkTarget_frame (target : Target) (fetched : Except String Json) (st : Cycle) :
    checkTarget target fetched st =
      { currentFailures := (emittedKeys target fetched).foldl setAdd st.currentFailures,
        failMessages := st.failMessages ++ emittedDetails target fetched,
        console := st.console ++ emittedConsole target fetched } := by
  unfold emittedKeys emittedDetails emittedConsole checkTarget
  rw [tryBlock_frame target fetched st]
  generalize tryBlock target fetched ⟨[], [], []⟩ = r
  obtain ⟨⟨cf, fm, co⟩, e⟩ := r
  cases e with
  | none => simp
  | some message =>
    simp only [List.nil_append, List.append_assoc, Cycle.mk.injEq, and_true]
    rw [foldl_setAdd_setAdd]

/-! ## The loop over the targets -/

theorem checkTargets_currentFailures (parse : String → Option Json)
    (probes : List (Target × Response)) (st : Cycle) :
    (checkTargets parse probes st).currentFailures =
      (cycleKeys parse probes).foldl setAdd st.currentFailures := by
  induction probes generalizing st with
  | nil => rfl
  | cons p r ih =>
    have hstep : checkTargets parse (p :: r) st =
        checkTargets parse r (checkTarget p.1 (fetchHealth parse p.2) st) := rfl
    rw [hstep, ih, checkTarget_frame]
    simp [cycleKeys, List.foldl_append]

theorem checkTargets_failMessages (parse : String → Option Json)
    (probes : List (Target × Response)) (st : Cycle) :
    (checkTargets parse probes st).failMessages =
      st.failMessages ++ cycleDetails parse probes := by
  induction probes generalizing st with
  | nil => simp [checkTargets, cycleDetails]
  | cons p r ih =>
    have hstep : checkTargets parse (p :: r) st =
        checkTargets parse r (checkTarget p.1 (fetchHealth parse p.2) st) := rfl
    rw [hstep, ih, checkTarget_frame]
    simp [cycleDetails]

theorem checkHealth_previousFailures (parse : String → Option Json)
    (send : SlackCall → Except String Unit) (t0 t1 : String)
    (probes : List (Target × Response)) (prev : List String) :
    (checkHealth parse send t0 t1 probes prev).previousFailures =
      (cycleKeys parse probes).foldl setAdd [] := by
  simp [checkHealth, checkTargets_currentFailures, Cycle.start]

theorem checkHealth_sent (parse : String → Option Json)
    (send : SlackCall → Except String Unit) (t0 t1 : String)
    (probes : List (Target × Response)) (prev : List String) :
    (checkHealth parse send t0 t1 probes prev).sent =
      (notify send prev ((cycleKeys parse probes).foldl setAdd [])
        (cycleDetails parse probes)).1 := by
  simp [checkHealth, checkTargets_currentFailures, checkTargets_failMessages, Cycle.start]

/-! ## The notification decision -/

theorem newFailures_pos_iff (prev cur : List String) :
    (newFailures prev cur).length > 0 ↔ ∃ k ∈ cur, k ∉ prev := by
  unfold newFailures
  rw [gt_iff_lt, List.length_pos, Ne, List.filter_eq_nil_iff]
  simp

theorem newFailureAlert_ne_recoveryAlert (msgs : List String) :
    newFailureAlert msgs ≠ recoveryAlert := by
  intro h
  have ht : (newFailureAlert msgs).title = recoveryAlert.title := by rw [h]
  revert ht
  simp only [newFailureAlert, recoveryAlert]
  decide

theorem notify_of_new (send : SlackCall → Except String Unit)
    (prev cur msgs : List String) (h : ∃ k ∈ cur, k ∉ prev) :
    (notify send prev cur msgs).1 = [newFailureAlert msgs] := by
  unfold notify
  rw [if_pos ((newFailures_pos_iff prev cur).2 h)]
  dsimp only
  cases send (newFailureAlert msgs) <;> rfl

theorem notify_of_recovery (send : SlackCall → Except String Unit)
    (prev cur msgs : List String) (hcur : cur = []) (hprev : prev ≠ []) :
    (notify send prev cur msgs).1 = [recoveryAlert] := by
  subst hcur
  unfold notify
  have h1 : ¬ (newFailures prev []).length > 0 := by simp [newFailures]
  have h2 : (([] : List String).length == 0 && decide (prev.length > 0)) = true := by
    simp [List.length_pos, hprev]
  rw [if_neg h1, if_pos h2]
  dsimp only
  cases send recoveryAlert <;> rfl

theorem notify_of_quiet (send : SlackCall → Except String Unit)
    (prev cur msgs : List String) (hnew : ¬ ∃ k ∈ cur, k ∉ prev)
    (hrec : ¬ (cur = [] ∧ prev ≠ [])) :
    notify send prev cur msgs = ([], []) := by
  unfold notify
  have h1 : ¬ (newFailures prev cur).length > 0 := fun h => hnew ((newFailures_pos_iff prev cur).1 h)
  have h2 : ¬ ((cur.length == 0 && decide (prev.length > 0)) = true) := by
    intro h
    apply hrec
    simp only [Bool.and_eq_true, beq_iff_eq, decide_eq_true_eq, List.length_eq_zero,
      gt_iff_lt, List.length_pos] at h
    exact h
  rw [if_neg h1, if_neg h2]

theorem foldl_setAdd_nil_eq_nil (ks : List String) : ks.foldl setAdd [] = [] ↔ ks = [] := by
  constructor
  · intro h
    rw [List.eq_nil_iff_forall_not_mem]
    intro k hk
    have hm : k ∈ ks.foldl setAdd [] := (mem_foldl_setAdd ks [] k).2 (Or.inr hk)
    rw [h] at hm
    exact List.not_mem_nil k hm
  · intro h
    subst h
    rfl

theorem notify_new_iff (send : SlackCall → Except String Unit) (prev cur msgs : List String) :
    (notify send prev cur msgs).1 = [newFailureAlert msgs] ↔ ∃ k ∈ cur, k ∉ prev := by
  constructor
  · intro h
    by_contra hnew
    by_cases hrec : cur = [] ∧ prev ≠ []
    · rw [notify_of_recovery send prev cur msgs hrec.1 hrec.2] at h
      exact newFailureAlert_ne_recoveryAlert msgs (List.singleton_inj.1 h).symm
    · rw [notify_of_quiet send prev cur msgs hnew hrec] at h
      exact List.noConfusion h
  · exact notify_of_new send prev cur msgs

theorem notify_recovery_iff (send : SlackCall → Except String Unit)
    (prev cur msgs : List String) :
    (notify send prev cur msgs).1 = [recoveryAlert] ↔ cur = [] ∧ prev ≠ [] := by
  constructor
  · intro h
    by_contra hrec
    by_cases hnew : ∃ k ∈ cur, k ∉ prev
    · rw [notify_of_new send prev cur msgs hnew] at h
      exact newFailureAlert_ne_recoveryAlert msgs (List.singleton_inj.1 h)
    · rw [notify_of_quiet send prev cur msgs hnew hrec] at h
      exact List.noConfusion h
  · intro h
    exact notify_of_recovery send prev cur msgs h.1 h.2

/-! ## The retained state and the notification decision of a cycle -/

/-- C1: the failure set retained after a cycle is the set of the keys emitted in the
cycle, collected target by target; it is the same for every prior set, every webhook
behaviour (whichever call is made, delivered or not) and every clock reading, it lists
no key twice, and its members are exactly the keys some target of the cycle emitted. -/
theorem previousFailures_is_cycle_union (parse : String → Option Json)
    (send send2 : SlackCall → Except String Unit) (t0 t1 u0 u1 : String)
    (probes : List (Target × Response)) (prev prev2 : List String) :
    (checkHealth parse send t0 t1 probes prev).previousFailures =
        (cycleKeys parse probes).foldl setAdd [] ∧
    (checkHealth parse send t0 t1 probes prev).previousFailures =
        (checkHealth parse send2 u0 u1 probes prev2).previousFailures ∧
    (checkHealth parse send t0 t1 probes prev).previousFailures.Nodup ∧
    ∀ k, k ∈ (checkHealth parse send t0 t1 probes prev).previousFailures ↔
      ∃ p ∈ probes, k ∈ emittedKeys p.1 (fetchHealth parse p.2) := by
  refine ⟨checkHealth_previousFailures _ _ _ _ _ _, ?_, ?_, ?_⟩
  · rw [checkHealth_previousFailures, checkHealth_previousFailures]
  · rw [checkHealth_previousFailures]
    exact nodup_foldl_setAdd _ _ List.nodup_nil
  · intro k
    rw [checkHealth_previousFailures, mem_foldl_setAdd]
    simp [cycleKeys, List.mem_flatMap]

/-- C2: the new-failure alert is the call made exactly when some current key is not in
the prior set, for every pair of sets and for every cycle; so one new key is enough,
whatever other keys are carried over and whichever target it belongs to. -/
theorem newFailureAlert_iff_new_key (send : SlackCall → Except String Unit) (prev : List String) :
    (∀ cur msgs : List String,
      (notify send prev cur msgs).1 = [newFailureAlert msgs] ↔ ∃ k ∈ cur, k ∉ prev) ∧
    (∀ (parse : String → Option Json) (t0 t1 : String) (probes : List (Target × Response)),
      (checkHealth parse send t0 t1 probes prev).sent =
          [newFailureAlert (cycleDetails parse probes)] ↔
        ∃ k ∈ (checkHealth parse send t0 t1 probes prev).previousFailures, k ∉ prev) ∧
    (∀ (cur msgs : List String) (k : String), k ∈ cur → k ∉ prev →
      (notify send prev cur msgs).1 = [newFailureAlert msgs]) := by
  refine ⟨fun cur msgs => notify_new_iff send prev cur msgs, ?_, ?_⟩
  · intro parse t0 t1 probes
    rw [checkHealth_sent, checkHealth_previousFailures]
    exact notify_new_iff send prev _ _
  · intro cur msgs k hk hn
    exact notify_of_new send prev cur msgs ⟨k, hk, hn⟩

/-- C3: the recovery alert, with its fixed message, is the call made exactly when the
current set is empty and the prior set is not, for every pair of sets and for every
cycle; a cycle that makes it does not make the new-failure call. -/
theorem recoveryAlert_iff_all_recovered (send : SlackCall → Except String Unit)
    (prev : List String) :
    (∀ cur msgs : List String,
      (notify send prev cur msgs).1 = [recoveryAlert] ↔ cur = [] ∧ prev ≠ []) ∧
    (∀ (parse : String → Option Json) (t0 t1 : String) (probes : List (Target × Response)),
      (checkHealth parse send t0 t1 probes prev).sent = [recoveryAlert] ↔
        (checkHealth parse send t0 t1 probes prev).previousFailures = [] ∧ prev ≠ []) ∧
    (∀ cur msgs m : List String,
      recoveryAlert ∈ (notify send prev cur msgs).1 →
        newFailureAlert m ∉ (notify send prev cur msgs).1) := by
  refine ⟨fun cur msgs => notify_recovery_iff send prev cur msgs, ?_, ?_⟩
  · intro parse t0 t1 probes
    rw [checkHealth_sent, checkHealth_previousFailures]
    exact notify_recovery_iff send prev _ _
  · intro cur msgs m hrec hnew
    by_cases h1 : ∃ k ∈ cur, k ∉ prev
    · rw [notify_of_new send prev cur msgs h1, List.mem_singleton] at hrec
      exact newFailureAlert_ne_recoveryAlert msgs hrec.symm
    · by_cases h2 : cur = [] ∧ prev ≠ []
      · rw [notify_of_recovery send prev cur msgs h2.1 h2.2, List.mem_singleton] at hnew
        exact newFailureAlert_ne_recoveryAlert m hnew
      · rw [notify_of_quiet send prev cur msgs h1 h2] at hrec
        exact List.not_mem_nil _ hrec

/-- C4: when every current key is already in the prior set, and the current set is not
empty or the prior set is empty, no call of `sendSlackBlock` is made and nothing about
Slack is written to the console, for the two sets as such and for every cycle whose
failure set is the current set. -/
theorem noop_when_nothing_new (send : SlackCall → Except String Unit)
    (prev cur msgs : List String) (hsub : ∀ k ∈ cur, k ∈ prev) (h : cur ≠ [] ∨ prev = []) :
    notify send prev cur msgs = ([], []) ∧
    ∀ (parse : String → Option Json) (t0 t1 : String) (probes : List (Target × Response)),
      (checkHealth parse send t0 t1 probes prev).previousFailures = cur →
        (checkHealth parse send t0 t1 probes prev).sent = [] := by
  have hnew : ¬ ∃ k ∈ cur, k ∉ prev := by
    rintro ⟨k, hk, hn⟩
    exact hn (hsub k hk)
  have hrec : ¬ (cur = [] ∧ prev ≠ []) := by
    rintro ⟨hc, hp⟩
    cases h with
    | inl h => exact h hc
    | inr h => exact hp h
  refine ⟨notify_of_quiet send prev cur msgs hnew hrec, ?_⟩
  intro parse t0 t1 probes hcur
  rw [checkHealth_previousFailures] at hcur
  rw [checkHealth_sent, hcur, notify_of_quiet send prev cur _ hnew hrec]


/-! ## What one target emits, case by case -/

theorem checkKey_of_detailLine (target : Target) (f : Json) (line : String)
    (h : detailLine target f = .ok line) :
    ∃ label, nameOrId f = .ok label ∧ checkKey target f = .ok (failureKey target.name (.check label)) := by
  unfold detailLine at h
  cases hn : nameOrId f with
  | error e => rw [hn] at h; exact Except.noConfusion h
  | ok label => exact ⟨label, rfl, by simp [checkKey, hn]⟩

theorem addFailures_of_detailLines (target : Target) (fs : List Json) (lines : List String)
    (h : detailLines target fs = .ok lines) :
    ∃ labels, List.Forall₂ (fun f label => nameOrId f = .ok label) fs labels ∧
      ∀ s, addFailures target fs s =
        ((labels.map (fun label => failureKey target.name (.check label))).foldl setAdd s, none) := by
  induction fs generalizing lines with
  | nil => exact ⟨[], List.Forall₂.nil, fun s => rfl⟩
  | cons f r ih =>
    unfold detailLines at h
    cases hl : detailLine target f with
    | error e => rw [hl] at h; exact Except.noConfusion h
    | ok line =>
      rw [hl] at h
      cases hr : detailLines target r with
      | error e => rw [hr] at h; exact Except.noConfusion h
      | ok rest =>
        obtain ⟨labels, hlabels, hadd⟩ := ih rest hr
        obtain ⟨label, hlabel, hkey⟩ := checkKey_of_detailLine target f line hl
        refine ⟨label :: labels, List.Forall₂.cons hlabel hlabels, ?_⟩
        intro s
        simp only [addFailures, hkey, hadd, List.map_cons, List.foldl_cons]

theorem optProp_lookup_attributes (fields : List (String × Json)) (key : String) :
    optProp (fields.lookup "attributes") key = attributeOf (.obj fields) key := by
  unfold optProp attributeOf
  dsimp only
  generalize List.lookup "attributes" fields = a
  cases a with
  | none => rfl
  | some j => cases j <;> rfl

theorem toStr_eq_primitiveText (v : JsValue) (h : isPrimitive v = true) :
    toStr v = .ok (primitiveText v) := by
  match v, h with
  | none, _ => rfl
  | some .null, _ => rfl
  | some (.bool true), _ => rfl
  | some (.bool false), _ => rfl
  | some (.num n), _ => rfl
  | some (.str s), _ => rfl

theorem truthy_eq_not_isFalsy (v : JsValue) : truthy v = !isFalsy v := by
  match v with
  | none => rfl
  | some .null => rfl
  | some (.bool true) => rfl
  | some (.bool false) => rfl
  | some (.num n) => rfl
  | some (.str s) => rfl
  | some (.arr _) => rfl
  | some (.obj _) => rfl

theorem notPassing_eq (v : JsValue) :
    notPassing v = decide (v ≠ some (.str "passing")) := by
  match v with
  | none => simp [notPassing]
  | some .null => simp [notPassing]
  | some (.bool b) => simp [notPassing]
  | some (.num n) => simp [notPassing]
  | some (.str s) => by_cases h : s = "passing" <;> simp [notPassing, h]
  | some (.arr _) => simp [notPassing]
  | some (.obj _) => simp [notPassing]

theorem isEvaluable_fields (item : Json) (h : isEvaluable item = true) :
    isPrimitive (idOf item) = true ∧ isPrimitive (nameOf item) = true ∧
      isPrimitive (statusOf item) = true := by
  cases item with
  | null => exact absurd h (by decide)
  | bool b => exact ⟨rfl, rfl, rfl⟩
  | num n => exact ⟨rfl, rfl, rfl⟩
  | str s => exact ⟨rfl, rfl, rfl⟩
  | arr items => exact ⟨rfl, rfl, rfl⟩
  | obj fields =>
    simp only [isEvaluable, Bool.and_eq_true, optProp_lookup_attributes] at h
    exact ⟨h.1.1, h.1.2, h.2⟩

theorem isFailing_eq (item : Json) (h : isEvaluable item = true) :
    isFailing item = .ok (decide (statusOf item ≠ some (.str "passing"))) := by
  cases item with
  | null => exact absurd h (by decide)
  | bool b => rfl
  | num n => rfl
  | str s => rfl
  | arr items => rfl
  | obj fields =>
    simp only [isFailing, getProp, optProp_lookup_attributes, notPassing_eq]
    rfl

theorem nameOrId_eq (item : Json) (h : isEvaluable item = true) :
    nameOrId item = .ok (labelOf item) := by
  obtain ⟨hid, hname, _⟩ := isEvaluable_fields item h
  cases item with
  | null => exact absurd h (by decide)
  | bool b => rfl
  | num n => rfl
  | str s => rfl
  | arr items => rfl
  | obj fields =>
    have hn : optProp (fields.lookup "attributes") "name" = nameOf (.obj fields) :=
      optProp_lookup_attributes fields "name"
    unfold nameOrId labelOf
    simp only [getProp, hn, truthy_eq_not_isFalsy]
    cases hf : isFalsy (nameOf (.obj fields))
    · simp only [Bool.not_false, if_true, Bool.false_eq_true, if_false]
      exact toStr_eq_primitiveText _ hname
    · simp only [Bool.not_true, Bool.false_eq_true, if_false, if_true]
      exact toStr_eq_primitiveText _ hid


theorem statusText_eq (item : Json) (h : isEvaluable item = true) :
    statusText item = .ok (primitiveText (statusOf item)) := by
  obtain ⟨_, _, hstatus⟩ := isEvaluable_fields item h
  cases item with
  | null => exact absurd h (by decide)
  | bool b => rfl
  | num n => rfl
  | str s => rfl
  | arr items => rfl
  | obj fields =>
    have hs : optProp (fields.lookup "attributes") "status" = statusOf (.obj fields) :=
      optProp_lookup_attributes fields "status"
    unfold statusText
    simp only [getProp, hs]
    exact toStr_eq_primitiveText _ hstatus

theorem detailLine_eq (target : Target) (item : Json) (h : isEvaluable item = true) :
    detailLine target item = .ok (lineOf target item) := by
  unfold detailLine
  rw [nameOrId_eq item h, statusText_eq item h]
  rfl

theorem checkKey_eq (target : Target) (item : Json) (h : isEvaluable item = true) :
    checkKey target item = .ok (target.name ++ ":" ++ labelOf item) := by
  unfold checkKey
  rw [nameOrId_eq item h]
  rfl

theorem filterFailing_eq (items : List Json) (h : ∀ item ∈ items, isEvaluable item = true) :
    filterFailing items =
      .ok (items.filter (fun item => statusOf item ≠ some (.str "passing"))) := by
  induction items with
  | nil => rfl
  | cons item rest ih =>
    have hrest := ih (fun x hx => h x (List.mem_cons_of_mem _ hx))
    simp only [filterFailing, isFailing_eq item (h item (List.mem_cons_self _ _)), hrest,
      List.filter_cons]

theorem detailLines_eq (target : Target) (items : List Json)
    (h : ∀ item ∈ items, isEvaluable item = true) :
    detailLines target items = .ok (items.map (lineOf target)) := by
  induction items with
  | nil => rfl
  | cons item rest ih =>
    have hrest := ih (fun x hx => h x (List.mem_cons_of_mem _ hx))
    simp only [detailLines, detailLine_eq target item (h item (List.mem_cons_self _ _)), hrest,
      List.map_cons]

theorem addFailures_eq (target : Target) (items : List Json)
    (h : ∀ item ∈ items, isEvaluable item = true) (s : List String) :
    addFailures target items s =
      ((items.map (fun item => target.name ++ ":" ++ labelOf item)).foldl setAdd s, none) := by
  induction items generalizing s with
  | nil => rfl
  | cons item rest ih =>
    simp only [addFailures, checkKey_eq target item (h item (List.mem_cons_self _ _)),
      ih (fun x hx => h x (List.mem_cons_of_mem _ hx)), List.map_cons, List.foldl_cons]

theorem tryBlock_checks (target : Target) (doc : Json) (items : List Json)
    (hdata : getProp doc "data" = .ok (some (.arr items)))
    (hev : ∀ item ∈ items, isEvaluable item = true) (st : Cycle) :
    tryBlock target (.ok doc) st =
      (if (items.filter (fun item => statusOf item ≠ some (.str "passing"))).length = 0 then
        { st with console := st.console ++
            [.log ("✅ " ++ target.name ++ ": All checks passing.")] }
       else
        { currentFailures :=
            ((items.filter (fun item => statusOf item ≠ some (.str "passing"))).map
              (fun item => target.name ++ ":" ++ labelOf item)).foldl setAdd st.currentFailures,
          failMessages := st.failMessages ++
            [String.intercalate "\n"
              ((items.filter (fun item => statusOf item ≠ some (.str "passing"))).map
                (lineOf target))],
          console := st.console ++
            [.error ("❌ " ++ String.intercalate "\n"
              ((items.filter (fun item => statusOf item ≠ some (.str "passing"))).map
                (lineOf target)))] }, none) := by
  have hsub : ∀ item ∈ items.filter (fun item => statusOf item ≠ some (.str "passing")),
      isEvaluable item = true := fun x hx => hev x (List.mem_of_mem_filter hx)
  generalize hF : items.filter (fun item => statusOf item ≠ some (.str "passing")) = failing
    at hsub
  have hfailing : filterFailing items = .ok failing := by rw [← hF]; exact filterFailing_eq items hev
  by_cases hnil : failing = []
  · subst hnil
    simp [tryBlock, hdata, hfailing, truthy, isArray, arrayItems]
  · have hpos : failing.length > 0 := List.length_pos.2 hnil
    simp [tryBlock, hdata, hfailing, truthy, isArray, arrayItems, hpos,
      detailLines_eq target failing hsub, addFailures_eq target failing hsub, hnil]

theorem checkTarget_failed (target : Target) (e : String) (st : Cycle) :
    checkTarget target (.error e) st =
      { currentFailures := setAdd st.currentFailures (target.name ++ ":ConnectionError"),
        failMessages :=
          st.failMessages ++ ["• *" ++ target.name ++ "*: Error fetching health (" ++ e ++ ")"],
        console := st.console ++
          [.error ("❌ " ++ ("• *" ++ target.name ++ "*: Error fetching health (" ++ e ++ ")"))] } :=
  rfl

theorem tryBlock_unexpected (target : Target) (doc : Json) (data : JsValue)
    (hdata : getProp doc "data" = .ok data) (harr : isArray data = false) (st : Cycle) :
    tryBlock target (.ok doc) st =
      ({ currentFailures := setAdd st.currentFailures (target.name ++ ": Unexpected JSON format"),
         failMessages := st.failMessages ++ ["• " ++ (target.name ++ ": Unexpected JSON format")],
         console := st.console ++
           [.error ("⚠️ " ++ (target.name ++ ": Unexpected JSON format"))] }, none) := by
  simp [tryBlock, hdata, harr, failureKey]

theorem tryBlock_array (target : Target) (doc : Json) (items failing : List Json)
    (lines : List String) (hdata : getProp doc "data" = .ok (some (.arr items)))
    (hfailing : filterFailing items = .ok failing)
    (hlines : detailLines target failing = .ok lines) (st : Cycle) :
    ∃ labels, List.Forall₂ (fun f label => nameOrId f = .ok label) failing labels ∧
      tryBlock target (.ok doc) st =
        (if failing.length = 0 then
          { st with console := st.console ++
              [.log ("✅ " ++ target.name ++ ": All checks passing.")] }
         else
          { currentFailures :=
              (labels.map (fun label => target.name ++ ":" ++ label)).foldl setAdd
                st.currentFailures,
            failMessages := st.failMessages ++ [String.intercalate "\n" lines],
            console := st.console ++ [.error ("❌ " ++ String.intercalate "\n" lines)] }, none) := by
  obtain ⟨labels, hlabels, hadd⟩ := addFailures_of_detailLines target failing lines hlines
  refine ⟨labels, hlabels, ?_⟩
  by_cases hnil : failing = []
  · subst hnil
    simp [tryBlock, hdata, hfailing, truthy, isArray, arrayItems]
  · have hpos : failing.length > 0 := List.length_pos.2 hnil
    simp [tryBlock, hdata, hfailing, truthy, isArray, arrayItems, hpos, hlines, hadd, hnil,
      failureKey]

/-! ## Documents with a `data` array -/

theorem array_emits (target : Target) (doc : Json) (items : List Json)
    (hdata : getProp doc "data" = .ok (some (.arr items)))
    (hev : ∀ item ∈ items, isEvaluable item = true) :
    (∀ st, (tryBlock target (.ok doc) st).2 = none) ∧
    (∀ k, k ∈ emittedKeys target (.ok doc) ↔
      ∃ item ∈ items, statusOf item ≠ some (.str "passing") ∧
        k = target.name ++ ":" ++ labelOf item) ∧
    emittedDetails target (.ok doc) =
      (if ∀ item ∈ items, statusOf item = some (.str "passing") then []
       else [String.intercalate "\n"
        ((items.filter (fun item => statusOf item ≠ some (.str "passing"))).map
          (lineOf target))]) ∧
    ((∀ item ∈ items, statusOf item = some (.str "passing")) →
      emittedKeys target (.ok doc) = [] ∧ emittedDetails target (.ok doc) = []) := by
  have htry := tryBlock_checks target doc items hdata hev
  have hlen : (items.filter (fun item => statusOf item ≠ some (.str "passing"))).length = 0 ↔
      ∀ item ∈ items, statusOf item = some (.str "passing") := by
    rw [List.length_eq_zero, List.filter_eq_nil_iff]
    simp
  have hkeys : emittedKeys target (.ok doc) =
      if ∀ item ∈ items, statusOf item = some (.str "passing") then []
      else ((items.filter (fun item => statusOf item ≠ some (.str "passing"))).map
        (fun item => target.name ++ ":" ++ labelOf item)).foldl setAdd [] := by
    unfold emittedKeys checkTarget
    rw [htry]
    by_cases h0 : ∀ item ∈ items, statusOf item = some (.str "passing")
    · rw [if_pos h0, if_pos (hlen.2 h0)]
    · rw [if_neg h0, if_neg (fun h => h0 (hlen.1 h))]
  have hdetails : emittedDetails target (.ok doc) =
      (if ∀ item ∈ items, statusOf item = some (.str "passing") then []
       else [String.intercalate "\n"
        ((items.filter (fun item => statusOf item ≠ some (.str "passing"))).map
          (lineOf target))]) := by
    unfold emittedDetails checkTarget
    rw [htry]
    by_cases h0 : ∀ item ∈ items, statusOf item = some (.str "passing")
    · rw [if_pos h0, if_pos (hlen.2 h0)]
    · rw [if_neg h0, if_neg (fun h => h0 (hlen.1 h))]
      rfl
  refine ⟨?_, ?_, hdetails, ?_⟩
  · intro st
    rw [htry st]
  · intro k
    rw [hkeys]
    constructor
    · intro hk
      by_cases h0 : ∀ item ∈ items, statusOf item = some (.str "passing")
      · rw [if_pos h0] at hk
        exact absurd hk (List.not_mem_nil k)
      · rw [if_neg h0, mem_foldl_setAdd] at hk
        rcases hk with hk | hk
        · exact absurd hk (List.not_mem_nil k)
        · obtain ⟨item, hitem, rfl⟩ := List.mem_map.1 hk
          rw [List.mem_filter] at hitem
          exact ⟨item, hitem.1, of_decide_eq_true hitem.2, rfl⟩
    · rintro ⟨item, hitem, hfail, rfl⟩
      have h0 : ¬ ∀ item ∈ items, statusOf item = some (.str "passing") :=
        fun h => hfail (h item hitem)
      rw [if_neg h0, mem_foldl_setAdd]
      exact Or.inr (List.mem_map.2 ⟨item, List.mem_filter.2 ⟨hitem, decide_eq_true hfail⟩, rfl⟩)
  · intro hpass
    rw [hkeys, hdetails, if_pos hpass, if_pos hpass]
    exact ⟨rfl, rfl⟩

theorem isEvaluable_of_isCheckObject (item : Json) (h : isCheckObject item = true) :
    isEvaluable item = true := by
  cases item <;> first | exact h | exact absurd h (by simp [isCheckObject])

/-- C7: for a document whose `data` is an array of check objects, the keys the target
emits are exactly the strings `target.name:label` of the items whose `attributes.status`
is not the string `passing`, where the label is the text of `attributes.name`, or of `id`
when the name is falsy; the target pushes one detail group, the lines of the failing
items in the order of `data` joined by newlines; when every item is passing (so also for
an empty array) it emits no key and no detail. The filter test, the key and the detail
line of the program evaluate, without an exception, to these values on every item, and
on an item with string fields the status is the `status` string and the label is `name`,
or `id` when `name` is empty. -/
theorem checks_emit_failing_items (target : Target) (doc : Json) (items : List Json)
    (hdata : getProp doc "data" = .ok (some (.arr items)))
    (hitems : ∀ item ∈ items, isCheckObject item = true) :
    (∀ k, k ∈ emittedKeys target (.ok doc) ↔
      ∃ item ∈ items, statusOf item ≠ some (.str "passing") ∧
        k = target.name ++ ":" ++ labelOf item) ∧
    emittedDetails target (.ok doc) =
      (if ∀ item ∈ items, statusOf item = some (.str "passing") then []
       else [String.intercalate "\n"
        ((items.filter (fun item => statusOf item ≠ some (.str "passing"))).map
          (lineOf target))]) ∧
    ((∀ item ∈ items, statusOf item = some (.str "passing")) →
      emittedKeys target (.ok doc) = [] ∧ emittedDetails target (.ok doc) = []) ∧
    (∀ item ∈ items,
      isFailing item = .ok (decide (statusOf item ≠ some (.str "passing"))) ∧
      checkKey target item = .ok (target.name ++ ":" ++ labelOf item) ∧
      detailLine target item = .ok (lineOf target item)) ∧
    (∀ id name status : String,
      isCheckObject (checkItem id name status) = true ∧
      statusOf (checkItem id name status) = some (.str status) ∧
      labelOf (checkItem id name status) = (if name = "" then id else name) ∧
      lineOf target (checkItem id name status) =
        "• *" ++ target.name ++ "* → " ++ (if name = "" then id else name) ++ ": \x60" ++
          status ++ "\x60") := by
  have hev : ∀ item ∈ items, isEvaluable item = true :=
    fun item hitem => isEvaluable_of_isCheckObject item (hitems item hitem)
  obtain ⟨_, hkeys, hdetails, hquiet⟩ := array_emits target doc items hdata hev
  refine ⟨hkeys, hdetails, hquiet, ?_, ?_⟩
  · intro item hitem
    exact ⟨isFailing_eq item (hev item hitem), checkKey_eq target item (hev item hitem),
      detailLine_eq target item (hev item hitem)⟩
  · intro id name status
    have hstatus : statusOf (checkItem id name status) = some (.str status) := by
      simp [statusOf, attributeOf, checkItem, List.lookup]
    have hname : nameOf (checkItem id name status) = some (.str name) := by
      simp [nameOf, attributeOf, checkItem, List.lookup]
    have hid : idOf (checkItem id name status) = some (.str id) := by
      simp [idOf, checkItem, List.lookup]
    have hlabel : labelOf (checkItem id name status) = (if name = "" then id else name) := by
      unfold labelOf
      rw [hname, hid]
      by_cases hn : name = "" <;> simp [isFalsy, primitiveText, hn]
    refine ⟨?_, hstatus, hlabel, ?_⟩
    · simp [isCheckObject, isEvaluable, checkItem, List.lookup, optProp, isPrimitive]
    · unfold lineOf
      rw [hlabel, hstatus]
      rfl

/-! ## Failure keys -/

theorem failureKey_eq_suffix (name : String) (c : Condition) :
    failureKey name c = name ++ ":" ++ c.suffix := by
  cases c with
  | check label => rfl
  | connectionError =>
    show name ++ ":ConnectionError" = name ++ ":" ++ "ConnectionError"
    rw [String.append_assoc]
    rfl
  | unexpectedFormat =>
    show name ++ ": Unexpected JSON format" = name ++ ":" ++ " Unexpected JSON format"
    rw [String.append_assoc]
    rfl

theorem suffix_injective (c1 c2 : Condition) (h1 : c1.isReserved = false)
    (h2 : c2.isReserved = false) (h : c1.suffix = c2.suffix) : c1 = c2 := by
  cases c1 <;> cases c2 <;>
    simp_all [Condition.suffix, Condition.isReserved]

theorem split_at_first_colon (a c b d : List Char) (ha : ':' ∉ a) (hc : ':' ∉ c)
    (h : a ++ ':' :: b = c ++ ':' :: d) : a = c ∧ b = d := by
  induction a generalizing c with
  | nil =>
    cases c with
    | nil => exact ⟨rfl, by simpa using h⟩
    | cons y c2 =>
      simp only [List.nil_append, List.cons_append, List.cons.injEq] at h
      exact absurd (h.1 ▸ List.mem_cons_self y c2) hc
  | cons x a2 ih =>
    cases c with
    | nil =>
      simp only [List.nil_append, List.cons_append, List.cons.injEq] at h
      exact absurd (h.1 ▸ List.mem_cons_self x a2) ha
    | cons y c2 =>
      simp only [List.cons_append, List.cons.injEq] at h
      obtain ⟨hxy, hrest⟩ := h
      obtain ⟨h1, h2⟩ := ih c2 (fun hm => ha (List.mem_cons_of_mem _ hm))
        (fun hm => hc (List.mem_cons_of_mem _ hm)) hrest
      exact ⟨by rw [hxy, h1], h2⟩

/-! ## The alert body -/

/-- C5: a call of `sendSlackBlock` with the new-failure title carries as its message the
detail groups of all the targets of the cycle, in the order of `HEALTH_URLS`, joined by
newlines, whatever the prior set holds; a target whose `data` array has no failing item
pushes no detail group. -/
theorem alert_body_is_all_details (parse : String → Option Json)
    (send : SlackCall → Except String Unit) (t0 t1 : String)
    (probes : List (Target × Response)) (prev : List String) (call : SlackCall)
    (hcall : call ∈ (checkHealth parse send t0 t1 probes prev).sent)
    (htitle : call.title = "🚨 障害検出") :
    call.message = String.intercalate "\n" (cycleDetails parse probes) ∧
    cycleDetails parse probes =
      probes.flatMap (fun p => emittedDetails p.1 (fetchHealth parse p.2)) ∧
    ∀ p ∈ probes, ∀ doc items, fetchHealth parse p.2 = .ok doc →
      getProp doc "data" = .ok (some (.arr items)) → filterFailing items = .ok [] →
        emittedDetails p.1 (fetchHealth parse p.2) = [] := by
  refine ⟨?_, rfl, ?_⟩
  · rw [checkHealth_sent] at hcall
    by_cases hnew : ∃ k ∈ (cycleKeys parse probes).foldl setAdd [], k ∉ prev
    · rw [notify_of_new send prev _ _ hnew, List.mem_singleton] at hcall
      rw [hcall]
      rfl
    · by_cases hrec : (cycleKeys parse probes).foldl setAdd [] = [] ∧ prev ≠ []
      · rw [notify_of_recovery send prev _ _ hrec.1 hrec.2, List.mem_singleton] at hcall
        rw [hcall] at htitle
        exact absurd htitle (by decide)
      · rw [notify_of_quiet send prev _ _ hnew hrec] at hcall
        exact absurd hcall (List.not_mem_nil call)
  · intro p _ doc items hdoc hdata hnone
    obtain ⟨_, _, htry⟩ := tryBlock_array p.1 doc items [] [] hdata hnone rfl ⟨[], [], []⟩
    unfold emittedDetails checkTarget
    rw [hdoc, htry]
    rfl

/-! ## A failed probe -/

/-- C6: a target whose probe fails, by a request error or by a body `JSON.parse` rejects,
emits the one key `target.name:ConnectionError` and the one detail line that carries its
name and the error message; in a cycle the targets before it leave what they leave when
run alone, and the targets after it are evaluated and add exactly their own keys and
detail groups. -/
theorem failed_probe_is_isolated (parse : String → Option Json) (target : Target)
    (r : Response) (e : String)
    (hfail : r = .failed e ∨
      ∃ body, r = .body body ∧ parse body = none ∧ e = "Invalid JSON response")
    (pre post : List (Target × Response)) (st : Cycle) :
    emittedKeys target (fetchHealth parse r) = [target.name ++ ":ConnectionError"] ∧
    emittedDetails target (fetchHealth parse r) =
      ["• *" ++ target.name ++ "*: Error fetching health (" ++ e ++ ")"] ∧
    (checkTargets parse (pre ++ (target, r) :: post) st).currentFailures =
      (cycleKeys parse post).foldl setAdd
        (setAdd (checkTargets parse pre st).currentFailures
          (target.name ++ ":ConnectionError")) ∧
    (checkTargets parse (pre ++ (target, r) :: post) st).failMessages =
      (checkTargets parse pre st).failMessages ++
        ["• *" ++ target.name ++ "*: Error fetching health (" ++ e ++ ")"] ++
        cycleDetails parse post := by
  have hfetch : fetchHealth parse r = .error e := by
    rcases hfail with h | ⟨body, h, hparse, he⟩
    · rw [h]
      rfl
    · rw [h, he]
      simp [fetchHealth, hparse]
  have hsplit : checkTargets parse (pre ++ (target, r) :: post) st =
      checkTargets parse post
        (checkTarget target (fetchHealth parse r) (checkTargets parse pre st)) := by
    simp [checkTargets, List.foldl_append]
  refine ⟨?_, ?_, ?_, ?_⟩
  · rw [hfetch]
    rfl
  · rw [hfetch]
    rfl
  · rw [hsplit, checkTargets_currentFailures, hfetch, checkTarget_failed]
  · rw [hsplit, checkTargets_failMessages, hfetch, checkTarget_failed]

/-! ## Documents without a `data` array -/

/-- C8 (amended): for a document on which `data` can be read (any value but `null`) and is
absent or not an array, the target emits exactly one key, the text
`target.name: Unexpected JSON format`. -/
theorem unexpected_format_key (target : Target) (doc : Json) (data : JsValue)
    (hdata : getProp doc "data" = .ok data) (harr : isArray data = false) :
    emittedKeys target (.ok doc) = [target.name ++ ": Unexpected JSON format"] := by
  unfold emittedKeys checkTarget
  rw [tryBlock_unexpected target doc data hdata harr]
  rfl

/-- C10 (amended): a document on which `data` can be read and is absent or not an array
goes through the unexpected-format branch: the `try` block ends without an exception, so
the `catch` block adds no ConnectionError entry, and the state gains the one
unexpected-format key, detail line and console line; the key differs from the
ConnectionError key. The elements of a `data` array are not checked against the shape
of a check: when none is `null` and their fields are primitive, the `try` block ends
without an exception and the keys emitted are exactly the strings `target.name:label` of
the elements whose `attributes.status` is not the string `passing`, the label being the
text of `attributes.name`, or of `id` when the name is falsy; an element that is not an
object has no status, so it is failing, and its label is `undefined`. -/
theorem unexpected_format_path (target : Target) (doc : Json) (st : Cycle) :
    (∀ data, getProp doc "data" = .ok data → isArray data = false →
      (tryBlock target (.ok doc) st).2 = none ∧
      checkTarget target (.ok doc) st =
        { currentFailures :=
            setAdd st.currentFailures (target.name ++ ": Unexpected JSON format"),
          failMessages := st.failMessages ++ ["• " ++ target.name ++ ": Unexpected JSON format"],
          console := st.console ++ [.error ("⚠️ " ++ target.name ++ ": Unexpected JSON format")] } ∧
      failureKey target.name .unexpectedFormat ≠ failureKey target.name .connectionError) ∧
    (∀ items, getProp doc "data" = .ok (some (.arr items)) →
      (∀ item ∈ items, isEvaluable item = true) →
      (tryBlock target (.ok doc) st).2 = none ∧
      ∀ k, k ∈ emittedKeys target (.ok doc) ↔
        ∃ item ∈ items, statusOf item ≠ some (.str "passing") ∧
          k = target.name ++ ":" ++ labelOf item) ∧
    (∀ item : Json, (∀ fields, item ≠ .obj fields) →
      statusOf item = none ∧ labelOf item = "undefined") := by
  refine ⟨?_, ?_, ?_⟩
  · intro data hdata harr
    refine ⟨?_, ?_, ?_⟩
    · rw [tryBlock_unexpected target doc data hdata harr]
    · unfold checkTarget
      rw [tryBlock_unexpected target doc data hdata harr]
      simp [String.append_assoc]
    · intro h
      rw [failureKey_eq_suffix, failureKey_eq_suffix] at h
      have h2 := congrArg String.data h
      simp only [String.data_append, List.append_cancel_left_eq] at h2
      exact absurd h2 (by decide)
  · intro items hdata hev
    have h := array_emits target doc items hdata hev
    exact ⟨h.1 st, h.2.1⟩
  · intro item hitem
    cases item with
    | obj fields => exact absurd rfl (hitem fields)
    | null => exact ⟨rfl, rfl⟩
    | bool b => exact ⟨rfl, rfl⟩
    | num n => exact ⟨rfl, rfl⟩
    | str s => exact ⟨rfl, rfl⟩
    | arr xs => exact ⟨rfl, rfl⟩

/-! ## Distinct conditions, distinct keys -/

/-- C9 (amended): two failing conditions that differ get different keys when they belong
to the same target name or to two target names without a colon, and no check among them
is labelled with the text of a failed probe or of an unexpected format. -/
theorem failureKey_injective (n1 n2 : String) (c1 c2 : Condition)
    (hnames : n1 = n2 ∨ (':' ∉ n1.data ∧ ':' ∉ n2.data))
    (h1 : c1.isReserved = false) (h2 : c2.isReserved = false)
    (hne : n1 ≠ n2 ∨ c1 ≠ c2) : failureKey n1 c1 ≠ failureKey n2 c2 := by
  intro h
  rw [failureKey_eq_suffix, failureKey_eq_suffix] at h
  have hd := congrArg String.data h
  simp only [String.data_append, List.append_assoc] at hd
  simp only [List.singleton_append] at hd
  have hboth : n1 = n2 ∧ c1.suffix = c2.suffix := by
    rcases hnames with hn | ⟨hn1, hn2⟩
    · subst hn
      have := List.append_cancel_left hd
      exact ⟨rfl, String.ext (List.cons.inj this).2⟩
    · obtain ⟨ha, hb⟩ := split_at_first_colon _ _ _ _ hn1 hn2 hd
      exact ⟨String.ext ha, String.ext hb⟩
  rcases hne with hne | hne
  · exact hne hboth.1
  · exact hne (suffix_injective c1 c2 h1 h2 hboth.2)

/-! ## The theorems on sample cycles -/

/-- C4 on a cycle: `db` keeps failing on the same check, nothing is sent. -/
theorem noop_when_nothing_new_witness :
    notify delivered ["db:disk"] ["db:disk"] ["• *db* → disk: \x60critical\x60"] = ([], []) ∧
    (checkHealth sampleParse delivered "t0" "t1" [(dbTarget, .body diskCriticalBody)]
      ["db:disk"]).sent = [] :=
  ⟨(noop_when_nothing_new delivered ["db:disk"] ["db:disk"] _ (by decide) (by decide)).1,
   (noop_when_nothing_new delivered ["db:disk"] ["db:disk"] [] (by decide) (by decide)).2
      sampleParse "t0" "t1" [(dbTarget, .body diskCriticalBody)] (by decide)⟩

/-- C5 on a cycle: `db:disk` is carried over, `api` is new, the body has both. -/
theorem alert_body_is_all_details_witness :
    (newFailureAlert ["• *db* → disk: \x60critical\x60",
        "• *api*: Error fetching health (ECONNREFUSED)"]).message =
      String.intercalate "\n"
        (cycleDetails sampleParse
          [(dbTarget, .body diskCriticalBody), (apiTarget, .failed "ECONNREFUSED")]) :=
  (alert_body_is_all_details sampleParse undelivered "t0" "t1"
    [(dbTarget, .body diskCriticalBody), (apiTarget, .failed "ECONNREFUSED")] ["db:disk"]
    (newFailureAlert ["• *db* → disk: \x60critical\x60",
        "• *api*: Error fetching health (ECONNREFUSED)"])
    (by decide) (by decide)).1

/-- C6 on a cycle: `api` answers with a body that is not JSON, between two runs of `db`. -/
theorem failed_probe_is_isolated_witness :
    (checkTargets sampleParse
      ([(dbTarget, .body diskCriticalBody)] ++ (apiTarget, .body "<html>") ::
        [(dbTarget, .body "\x7b\x7d")]) (Cycle.start "t0")).failMessages =
      (checkTargets sampleParse [(dbTarget, .body diskCriticalBody)]
          (Cycle.start "t0")).failMessages ++
        ["• *" ++ apiTarget.name ++ "*: Error fetching health (" ++ "Invalid JSON response" ++ ")"] ++
        cycleDetails sampleParse [(dbTarget, .body "\x7b\x7d")] :=
  (failed_probe_is_isolated sampleParse apiTarget (.body "<html>") "Invalid JSON response"
    (Or.inr ⟨"<html>", rfl, rfl, rfl⟩)
    [(dbTarget, .body diskCriticalBody)] [(dbTarget, .body "\x7b\x7d")] (Cycle.start "t0")).2.2.2

/-- C7 on two documents: a check without a name whose status is `warning` is failing and
is keyed by its id, next to a passing check; a named critical check is keyed by its name. -/
theorem checks_emit_failing_items_witness :
    ("db:i1" ∈ emittedKeys dbTarget (.ok unnamedWarningDoc) ↔
      ∃ item ∈ [checkItem "i1" "" "warning", checkItem "2" "cpu" "passing"],
        statusOf item ≠ some (.str "passing") ∧ "db:i1" = dbTarget.name ++ ":" ++ labelOf item) ∧
    emittedKeys dbTarget (.ok unnamedWarningDoc) = ["db:i1"] ∧
    emittedDetails dbTarget (.ok unnamedWarningDoc) = ["• *db* → i1: \x60warning\x60"] ∧
    emittedKeys dbTarget (.ok diskCriticalDoc) = ["db:disk"] ∧
    emittedDetails dbTarget (.ok diskCriticalDoc) = ["• *db* → disk: \x60critical\x60"] :=
  ⟨(checks_emit_failing_items dbTarget unnamedWarningDoc
    [checkItem "i1" "" "warning", checkItem "2" "cpu" "passing"] rfl (by decide)).1 "db:i1",
   by decide, by decide, by decide, by decide⟩

/-- C8: the key of the document `\x7b\x7d` is the message text, not
`db:UnexpectedFormat`, and the document `null` gets the ConnectionError key. -/
theorem unexpected_format_key_is_the_message :
    emittedKeys dbTarget (.ok (.obj [])) = ["db: Unexpected JSON format"] ∧
    emittedKeys dbTarget (.ok (.obj [])) ≠ [dbTarget.name ++ ":UnexpectedFormat"] ∧
    emittedKeys dbTarget (.ok .null) = [dbTarget.name ++ ":ConnectionError"] ∧
    emittedKeys dbTarget (.ok .null) ≠ [dbTarget.name ++ ":UnexpectedFormat"] := by
  decide

/-- C8 (amended) on the document `\x7b\x7d`. -/
theorem unexpected_format_key_witness :
    emittedKeys dbTarget (.ok (.obj [])) = [dbTarget.name ++ ": Unexpected JSON format"] :=
  unexpected_format_key dbTarget (.obj []) none rfl rfl

/-- C9: a check labelled `ConnectionError` has the key of a failed probe, a colon in a
target name lets two targets share a key, and a cycle in which the probe of `db` works
again while its check `ConnectionError` fails sends nothing. -/
theorem failureKey_collisions :
    (Condition.check "ConnectionError" ≠ Condition.connectionError ∧
      failureKey "db" (.check "ConnectionError") = failureKey "db" .connectionError) ∧
    (("db", Condition.check "eu:disk") ≠ ("db:eu", Condition.check "disk") ∧
      failureKey "db" (.check "eu:disk") = failureKey "db:eu" (.check "disk")) ∧
    (checkHealth sampleParse delivered "t0" "t1" [(dbTarget, .failed "ECONNREFUSED")]
      []).previousFailures = ["db:ConnectionError"] ∧
    (checkHealth sampleParse delivered "t2" "t3" [(dbTarget, .body namedLikeAnErrorBody)]
      ["db:ConnectionError"]).sent = [] := by
  decide

/-- C9 (amended) on a failing check and a failed probe of `db`. -/
theorem failureKey_injective_witness :
    failureKey "db" (.check "disk") ≠ failureKey "db" .connectionError :=
  failureKey_injective "db" "db" (.check "disk") .connectionError (Or.inl rfl) rfl rfl
    (Or.inr (by decide))

/-- C10: the elements of `\x7b"data":[5]\x7d` are evaluated as checks, and the documents
`\x7b"data":[null]\x7d` and `null` end in the `catch` block. -/
theorem deviations_outside_unexpected_format :
    checkTarget dbTarget (.ok numberElementDoc) ⟨[], [], []⟩ =
      ⟨["db:undefined"], ["• *db* → undefined: \x60undefined\x60"],
        [.error "❌ • *db* → undefined: \x60undefined\x60"]⟩ ∧
    emittedKeys dbTarget (.ok numberElementDoc) ≠ [failureKey "db" .unexpectedFormat] ∧
    checkTarget dbTarget (.ok nullElementDoc) ⟨[], [], []⟩ =
      ⟨["db:ConnectionError"],
        ["• *db*: Error fetching health (Cannot read properties of null (reading \x27attributes\x27))"],
        [.error "❌ • *db*: Error fetching health (Cannot read properties of null (reading \x27attributes\x27))"]⟩ ∧
    checkTarget dbTarget (.ok .null) ⟨[], [], []⟩ =
      ⟨["db:ConnectionError"],
        ["• *db*: Error fetching health (Cannot read properties of null (reading \x27data\x27))"],
        [.error "❌ • *db*: Error fetching health (Cannot read properties of null (reading \x27data\x27))"]⟩ := by
  decide

/-- C10 (amended) on the document `\x7b\x7d` and on the document `\x7b"data":[5]\x7d`,
whose element has no status and the label `undefined`. -/
theorem unexpected_format_path_witness :
    ((tryBlock dbTarget (.ok (.obj [])) ⟨[], [], []⟩).2 = none ∧
      checkTarget dbTarget (.ok (.obj [])) ⟨[], [], []⟩ =
        { currentFailures := setAdd [] (dbTarget.name ++ ": Unexpected JSON format"),
          failMessages := [] ++ ["• " ++ dbTarget.name ++ ": Unexpected JSON format"],
          console := [] ++ [.error ("⚠️ " ++ dbTarget.name ++ ": Unexpected JSON format")] } ∧
      failureKey dbTarget.name .unexpectedFormat ≠ failureKey dbTarget.name .connectionError) ∧
    (tryBlock dbTarget (.ok numberElementDoc) ⟨[], [], []⟩).2 = none ∧
    ("db:undefined" ∈ emittedKeys dbTarget (.ok numberElementDoc) ↔
      ∃ item ∈ [Json.num { isZero := false, text := "5" }],
        statusOf item ≠ some (.str "passing") ∧
          "db:undefined" = dbTarget.name ++ ":" ++ labelOf item) ∧
    emittedKeys dbTarget (.ok numberElementDoc) = ["db:undefined"] :=
  ⟨(unexpected_format_path dbTarget (.obj []) ⟨[], [], []⟩).1 none rfl rfl,
   ((unexpected_format_path dbTarget numberElementDoc ⟨[], [], []⟩).2.1
      [.num { isZero := false, text := "5" }] rfl (by decide)).1,
   ((unexpected_format_path dbTarget numberElementDoc ⟨[], [], []⟩).2.1
      [.num { isZero := false, text := "5" }] rfl (by decide)).2 "db:undefined",
   by decide⟩

end CheckHealth
